import Mathlib

/-!
Verification of the table-extraction / dual-pipeline QA core of the
vertis-Demo repository, shallowly embedded in Lean 4.

Conventions used throughout this development:
* JavaScript strings are modelled as `List Char`; slicing, trimming and
  substring search are given explicit executable definitions mirroring the
  ECMAScript operations used by the source.
* JavaScript numbers are modelled as exact rationals (`ℚ`); `NaN` is
  modelled by `Option` (`none` = NaN), and `Infinity` by a dedicated
  constructor, so that `isNaN`-style checks and `|| 0` coercions can be
  stated faithfully.  Floating-point rounding is idealised away.
* The in-process cosine similarity (which calls `Math.sqrt`) is modelled
  over `ℝ` (`cosineSimilarity` below); since its values are irrational in
  general, the retrieval pipelines are stated parametrically in the
  similarity oracle and instantiated at `cosineSimilarity` conceptually.
* Fallible external calls (embedding service, generation service, store
  queries) appear as `Except`/`Option`-valued fields of an environment
  record; a thrown JS exception is `Except.error`.
-/

namespace Vertis

/-! ## JavaScript string primitives -/

/-- Character class of ECMAScript `\s` / `String.prototype.trim`
(whitespace and line terminators; the common code points suffice for the
ASCII-oriented strings this code base handles). -/
def isJsWhitespace (c : Char) : Bool :=
  c = ' ' || c = '\t' || c = '\n' || c = '\r' ||
  c.val = 11 || c.val = 12 || c.val = 0xa0 || c.val = 0xfeff ||
  c.val = 0x2028 || c.val = 0x2029

/-- ECMAScript line terminators (the characters `.` does not match in a
regular expression without the `s` flag). -/
def isLineTerminator (c : Char) : Bool :=
  c = '\n' || c = '\r' || c.val = 0x2028 || c.val = 0x2029

/-- Drop leading JS whitespace. -/
def trimLeft (s : List Char) : List Char := s.dropWhile isJsWhitespace

/-- Drop trailing JS whitespace. -/
def trimRight (s : List Char) : List Char :=
  (s.reverse.dropWhile isJsWhitespace).reverse

/-- Model of `String.prototype.trim`. -/
def jsTrim (s : List Char) : List Char := trimRight (trimLeft s)

/-- Lower-case a string character-wise (`String.prototype.toLowerCase`
restricted to the simple case mappings used here). -/
def lowerStr (s : List Char) : List Char := s.map Char.toLower

/-- Model of `hay.indexOf pat` — index of the first occurrence of `pat` in `hay`,
`none` when absent. -/
def firstIdxOf (pat : List Char) : List Char → Option ℕ
  | [] => if pat = [] then some 0 else none
  | c :: t =>
    if pat.isPrefixOf (c :: t) then some 0
    else (firstIdxOf pat t).map (· + 1)

/-- Model of `String.prototype.includes pat` — substring containment. -/
def containsSubstr (hay pat : List Char) : Bool :=
  (firstIdxOf pat hay).isSome

/-- Smallest offset inside `s` at which one of `stops` starts (or `s.length`
when none does) — the lazy-capture stop position of a `(?=A|B|$)`
lookahead. -/
def firstStop (stops : List (List Char)) : List Char → ℕ
  | [] => 0
  | c :: t =>
    if stops.any (fun p => p.isPrefixOf (c :: t)) then 0
    else 1 + firstStop stops t

/-! ## JavaScript numbers and `parseFloat` -/

/-- A non-NaN JavaScript number: an exact rational or a signed infinity. -/
inductive JSNum where
  | fin (q : ℚ)
  | posInf
  | negInf
deriving DecidableEq, Repr

/-- Unary minus on a JS number. -/
def jsNeg : JSNum → JSNum
  | .fin q => .fin (-q)
  | .posInf => .negInf
  | .negInf => .posInf

/-- Decimal digit test. -/
def isDigit (c : Char) : Bool := '0' ≤ c ∧ c ≤ '9'

/-- Value of a digit string (most significant first). -/
def digitsVal (ds : List Char) : ℕ :=
  ds.foldl (fun acc c => 10 * acc + (c.toNat - '0'.toNat)) 0

/-- Parse the optional exponent part `e`/`E` `[+-]? digits+` of a decimal
literal; an `e` not followed by a digit is trailing garbage and is
ignored (as `parseFloat` does). Returns the exponent (0 when absent). -/
def parseExponent (s : List Char) : ℤ :=
  if s.head? = some 'e' ∨ s.head? = some 'E' then
    let r := s.drop 1
    let expNeg := r.head? = some '-'
    let r2 := if r.head? = some '-' ∨ r.head? = some '+' then r.drop 1 else r
    if (r2.takeWhile isDigit) = [] then 0
    else if expNeg then -(digitsVal (r2.takeWhile isDigit) : ℤ)
    else (digitsVal (r2.takeWhile isDigit) : ℤ)
  else 0

/-- ECMAScript `parseFloat`: skip leading whitespace, optional sign, then
the longest prefix that is `Infinity` or a decimal literal
(`digits [. digits] [exp]` or `. digits [exp]`); trailing garbage is
ignored; `none` is `NaN` (no valid numeric prefix). -/
def parseFloat (s : List Char) : Option JSNum :=
  let s1 := trimLeft s
  let signNeg := s1.head? = some '-'
  let s2 := if s1.head? = some '-' ∨ s1.head? = some '+' then s1.drop 1 else s1
  if ("Infinity".toList).isPrefixOf s2 then
    some (if signNeg then .negInf else .posInf)
  else
    let intDigits := s2.takeWhile isDigit
    let rest := s2.dropWhile isDigit
    let hasDot := rest.head? = some '.'
    let fracDigits := if hasDot then (rest.drop 1).takeWhile isDigit else []
    let afterFrac := if hasDot then (rest.drop 1).dropWhile isDigit else rest
    if intDigits = [] ∧ fracDigits = [] then none
    else
      let e := parseExponent afterFrac
      let mantissa : ℚ :=
        (digitsVal intDigits : ℚ) + (digitsVal fracDigits : ℚ) / (10 : ℚ) ^ fracDigits.length
      let value : ℚ := mantissa * (10 : ℚ) ^ e
      some (.fin (if signNeg then -value else value))

/-! ## Table normalization (`src/lib/ingestion/table-extraction.ts`) -/

/-- Test of the regular expression `^\(.*\)$` on `s` (no `s`/`m` flags:
`.` does not match line terminators, `^`/`$` anchor the whole string). -/
def parenWrapped (s : List Char) : Bool :=
  match s with
  | '(' :: t =>
    match t.reverse with
    | ')' :: midRev => midRev.all (fun c => ¬ isLineTerminator c)
    | _ => false
  | _ => false

/-- Model of `parseNumericValue` from `table-extraction.ts`: strip `,` `₹` `%`,
trim, treat a fully parenthesised value as negated, `parseFloat` the rest;
`NaN` becomes a null numeric value (`none`). Total — never raises. -/
def parseNumericValue (value : List Char) : Option JSNum :=
  let cleaned := jsTrim (value.filter (fun c => ¬ (c = ',' ∨ c = '₹' ∨ c = '%')))
  if parenWrapped cleaned then
    match parseFloat (cleaned.filter (fun c => ¬ (c = '(' ∨ c = ')'))) with
    | none => none
    | some n => some (jsNeg n)
  else
    parseFloat cleaned

/-- The `NormalizedRow` record (long-format cell observation). -/
structure NormalizedRow where
  rowLabel : String
  columnLabel : String
  period : Option String
  value : String
  numericValue : Option JSNum
  rowIndex : ℕ
  columnIndex : ℕ
deriving DecidableEq, Repr

/-- Column label: `headerRow[colIdx] || Column ${colIdx}` (an absent or
empty header cell is falsy and falls back to the synthetic label). -/
def columnLabelOf (headerRow : List String) (colIdx : ℕ) : String :=
  match headerRow.get? colIdx with
  | some h => if h = "" then "Column " ++ toString colIdx else h
  | none => "Column " ++ toString colIdx

/-- One `NormalizedRow` for data row `row` (at grid index `rowIdx`) and the
cell at column `colIdx`. -/
def mkNormalizedRow (headerRow row : List String) (rowIdx colIdx : ℕ)
    (value : String) : NormalizedRow :=
  { rowLabel := row.headD ""
    columnLabel := columnLabelOf headerRow colIdx
    period := some (columnLabelOf headerRow colIdx)
    value := value
    numericValue := parseNumericValue value.toList
    rowIndex := rowIdx
    columnIndex := colIdx }

/-- Model of `normalizeTableRows` from `table-extraction.ts`: header row first, the
remaining rows indexed from 1, each cell from column index 1 on yielding
one `NormalizedRow`; a grid with fewer than 2 rows yields `[]`. -/
def normalizeTableRows (grid : List (List String)) : List NormalizedRow :=
  if grid.length < 2 then []
  else
    let headerRow := grid.headD []
    ((grid.drop 1).enumFrom 1).flatMap (fun rowPair =>
      ((rowPair.2.enumFrom 0).drop 1).map (fun cellPair =>
        mkNormalizedRow headerRow rowPair.2 rowPair.1 cellPair.1 cellPair.2))

/-! ## Text chunker (`chunkText` in the pdf-parsing module) -/

/-- A page of extracted text (`PageText`). -/
structure PageText where
  page : ℤ
  text : List Char
  startIndex : ℕ
  endIndex : ℕ
deriving DecidableEq

/-- A produced chunk (`TextChunk`). -/
structure TextChunk where
  page : ℤ
  chunkIndex : ℕ
  text : List Char
  startChar : ℕ
  endChar : ℕ
deriving DecidableEq

/-- The per-page `while` loop of `chunkText`: starting at `startPos`,
slice a window of `chunkSize` characters (clamped to the page end), trim
it, keep it only when its trimmed length exceeds 50, advance by
`chunkSize - overlap`, and stop once the window reached the page end.
Each kept piece is reported as `(startPos, endPos, trimmed text)`.

The source loop does not terminate when `overlap ≥ chunkSize` and the
page is longer than the window (the start position never advances); that
divergent case is modelled by stopping after the current piece. -/
def chunkPageLoop (chunkSize overlap : ℕ) (pageText : List Char)
    (startPos : ℕ) : List (ℕ × ℕ × List Char) :=
  if h1 : startPos < pageText.length then
    let endPos := min (startPos + chunkSize) pageText.length
    let piece := jsTrim ((pageText.drop startPos).take (endPos - startPos))
    let here := if 50 < piece.length then [(startPos, endPos, piece)] else []
    if h2 : pageText.length ≤ endPos then here
    else if h3 : overlap < chunkSize then
      here ++ chunkPageLoop chunkSize overlap pageText (startPos + (chunkSize - overlap))
    else here
  else []
termination_by pageText.length - startPos
decreasing_by
  simp only [not_le] at h2
  omega

/-- Model of `chunkText`: run the window loop on every page in order and assign
`chunkIndex` values from a document-global counter that increments only
when a chunk is kept (hence indices are `0, 1, 2, …` in output order). -/
def chunkText (pages : List PageText) (chunkSize overlap : ℕ) : List TextChunk :=
  let pieces := pages.flatMap (fun p =>
    (chunkPageLoop chunkSize overlap p.text 0).map (fun t => (p, t)))
  (pieces.enumFrom 0).map (fun ip =>
    { page := ip.2.1.page
      chunkIndex := ip.1
      text := ip.2.2.2.2
      startChar := ip.2.1.startIndex + ip.2.2.1
      endChar := ip.2.1.startIndex + ip.2.2.2.1 })

/-! ## In-process cosine similarity (vector ranking in both pipelines) -/

/-- Dot product of two embedding vectors (the JS loop runs over the
question vector's indices; stored and query embeddings share the fixed
model dimensionality, so the zip is exact). -/
def dotp (q c : List ℝ) : ℝ := (List.zipWith (· * ·) q c).sum

open Classical in
/-- The similarity expression
`dotProduct / (Math.sqrt(mag1) * Math.sqrt(mag2))` computed by both
pipelines. IEEE division yields `NaN` (modelled `none`) exactly when the
denominator is `0`, i.e. when either vector has zero magnitude; the
source has no guard for that case. The function itself never throws. -/
noncomputable def cosineSimilarity (q c : List ℝ) : Option ℝ :=
  let denom := Real.sqrt (dotp q q) * Real.sqrt (dotp c c)
  if denom = 0 then none else some (dotp q c / denom)

/-! ## Similarity ranking over stored records

The pipelines compute the similarity score of every candidate with a
non-null embedding, sort descending (JS `Array.prototype.sort` is
stable), and slice a top-K prefix.  Scores are JS numbers: `Option ℚ`
with `none` standing for `NaN` (a zero-magnitude vector, see
`cosineSimilarity`); the sort comparator and the confidence computation
coerce `NaN` to `0` through `|| 0`.  The pipelines are stated
parametrically in the similarity oracle `sim` because the concrete
float values of `Math.sqrt` are irrational. -/

/-- Model of `x.similarity || 0`: `undefined`/`NaN` (and `0` itself) become `0`. -/
def simCoerce (s : Option ℚ) : ℚ :=
  match s with
  | none => 0
  | some v => v

/-- A candidate paired with its computed similarity score. -/
structure Ranked (α : Type) where
  item : α
  similarity : Option ℚ
deriving Repr, DecidableEq

/-- Stable insert for descending order: place `x` before the first
element whose coerced score is `≤` its own (so earlier input order wins
ties, as a stable sort's comparator `(b||0) - (a||0)` does). -/
def insertDesc {α : Type} (x : Ranked α) : List (Ranked α) → List (Ranked α)
  | [] => [x]
  | y :: ys =>
    if simCoerce y.similarity ≤ simCoerce x.similarity then x :: y :: ys
    else y :: insertDesc x ys

/-- Stable sort by descending coerced similarity. -/
def sortDesc {α : Type} : List (Ranked α) → List (Ranked α)
  | [] => []
  | x :: xs => insertDesc x (sortDesc xs)

/-- Model of `candidates.map(compute sim).filter(non-null).sort(desc).slice(0, k)`:
records with a missing embedding are dropped by the `filter(c => c !== null)`
step; every other record keeps its (possibly NaN) score. -/
def rankCandidates {α : Type} (sim : List ℚ → List ℚ → Option ℚ)
    (qEmb : List ℚ) (getEmb : α → Option (List ℚ)) (cands : List α)
    (k : ℕ) : List (Ranked α) :=
  let withSim := cands.filterMap (fun c =>
    (getEmb c).map (fun e => Ranked.mk c (sim qEmb e)))
  (sortDesc withSim).take k

/-- Model of `list[0]?.similarity || 0` — the top score used for confidence. -/
def topSimilarity {α : Type} (l : List (Ranked α)) : ℚ :=
  match l.head? with
  | none => 0
  | some r => simCoerce r.similarity

/-! ## Question router (`classifyQuestion`) -/

/-- The TS union `"factual" | "financial"`. -/
inductive QuestionType where
  | factual
  | financial
deriving DecidableEq, Repr

/-- Model of `classifyQuestion`: the classification call either throws
(`Except.error`) or returns free text.  The response is trimmed and
lower-cased; a response containing `"financial"` wins, else one
containing `"factual"`, else the default `"financial"`; a thrown error
also defaults to `"financial"`. -/
def classifyQuestion (response : Except String String) : QuestionType :=
  match response with
  | .error _ => .financial
  | .ok r =>
    let c := lowerStr (jsTrim r.toList)
    if containsSubstr c "financial".toList then .financial
    else if containsSubstr c "factual".toList then .factual
    else .financial

/-! ## Factual answer pipeline (`src/lib/qa/factual-qa.ts`) -/

/-- Confidence tiers. -/
inductive Confidence where
  | high
  | medium
  | low
  | not_found
deriving DecidableEq, Repr

/-- A stored `text_chunks` record (embedding already JSON-parsed; a null
column is `none`). -/
structure TextChunkRec where
  id : ℤ
  document_id : ℤ
  page : ℤ
  chunk_index : ℤ
  text : String
  embedding : Option (List ℚ)
deriving DecidableEq

/-- A factual citation. -/
structure Citation where
  documentName : String
  page : ℤ
  chunkId : ℤ
deriving DecidableEq, Repr

/-- The factual pipeline's structured response. -/
structure FactualAnswer where
  answer : String
  quotedEvidence : String
  citations : List Citation
  confidence : Confidence
deriving DecidableEq, Repr

/-- The fixed no-evidence response. -/
def notAvailableFactual : FactualAnswer :=
  { answer := "Not available in the provided documents."
    quotedEvidence := ""
    citations := []
    confidence := .not_found }

/-- The generic response produced by the catch-all handler. -/
def errorFactual : FactualAnswer :=
  { answer := "An error occurred while processing your question."
    quotedEvidence := ""
    citations := []
    confidence := .not_found }

/-- Model of `response.split("\n")[0]`. -/
def firstLine (s : List Char) : List Char := s.takeWhile (fun c => c ≠ '\n')

/-- The lookahead alternatives of the answer-capture regex. -/
def answerStops : List (List Char) := ["Quoted Evidence:".toList, "Citation:".toList]

/-- The capture of `/Answer:\s*([\s\S]+?)(?=Quoted Evidence:|Citation:|$)/`
(trimmed), with the `response.split("\n")[0].trim()` fallback when the
regex has no match: the lazy capture starts after the first `Answer:`
and its following whitespace, takes at least one character, and stops at
the first position where a lookahead alternative (or the end of the
string) matches; when only whitespace follows `Answer:`, `\s*`
backtracks and the capture is that whitespace (empty after trimming). -/
def parseAnswerSection (resp : List Char) : List Char :=
  match firstIdxOf "Answer:".toList resp with
  | none => jsTrim (firstLine resp)
  | some i =>
    let after := resp.drop (i + 7)
    if after = [] then jsTrim (firstLine resp)
    else
      let body := after.dropWhile isJsWhitespace
      if body = [] then []
      else
        let j := 1 + firstStop answerStops (body.drop 1)
        jsTrim (body.take j)

/-- Does `"?(?=Citation:|$)` hold at this suffix? -/
def quotedStopHere (s : List Char) : Bool :=
  ("Citation:".toList).isPrefixOf s ∨
    (s.head? = some '"' ∧ (s.drop 1 = [] ∨ ("Citation:".toList).isPrefixOf (s.drop 1)))

/-- Offset of the lazy-capture stop for the quoted-evidence regex. -/
def quotedStop : List Char → ℕ
  | [] => 0
  | c :: t => if quotedStopHere (c :: t) then 0 else 1 + quotedStop t

/-- The capture of `/Quoted Evidence:\s*"?([\s\S]+?)"?(?=Citation:|$)/`
(trimmed), empty when the regex has no match. -/
def parseQuotedSection (resp : List Char) : List Char :=
  match firstIdxOf "Quoted Evidence:".toList resp with
  | none => []
  | some i =>
    let after := resp.drop (i + 16)
    let afterWs := after.dropWhile isJsWhitespace
    let body := if afterWs.head? = some '"' then afterWs.drop 1 else afterWs
    if body = [] then []
    else
      let j := 1 + quotedStop (body.drop 1)
      jsTrim (body.take j)

/-- Result of `parseFactualResponse`. -/
structure ParsedFactual where
  answer : String
  quotedEvidence : String

/-- Model of `parseFactualResponse` from `factual-qa.ts`. -/
def parseFactualResponse (response : String) : ParsedFactual :=
  { answer := String.mk (parseAnswerSection response.toList)
    quotedEvidence := String.mk (parseQuotedSection response.toList) }

/-- Last-wins association-list lookup (a JS `Map` built from a key/value
array keeps the latest entry for a duplicated key). -/
def lookupStr (m : List (ℤ × String)) (k : ℤ) : Option String :=
  (m.reverse.find? (fun p => decide (p.1 = k))).map (fun p => p.2)

/-- Model of `documentMap.get(id) || Document id` (an empty stored name is
falsy and also falls back). -/
def docNameOrDefault (m : List (ℤ × String)) (k : ℤ) : String :=
  match lookupStr m k with
  | some s => if s = "" then "Document " ++ toString k else s
  | none => "Document " ++ toString k

/-- The `text_chunks` select: optional `in("document_id", ids)` filter
(only applied when a non-empty id list was passed), `limit(100)`. -/
def runChunkQuery (store : List TextChunkRec) (documentIds : Option (List ℤ)) :
    List TextChunkRec :=
  (match documentIds with
   | some ids =>
     if ids = [] then store
     else store.filter (fun c => decide (c.document_id ∈ ids))
   | none => store).take 100

/-- Thresholds `>0.8 → high, >0.6 → medium, else low` on the top similarity. -/
def factualConfidence (t : ℚ) : Confidence :=
  if 0.8 < t then .high else if 0.6 < t then .medium else .low

/-- External-world inputs of one `answerFactualQuestion` call: the
embedding call's outcome, the stored chunk table and the fetch outcome,
the (error-ignoring) document-name query, the generation call's outcome,
and the similarity oracle (see `cosineSimilarity`). -/
structure FactualEnv where
  embedQ : Except String (List ℚ)
  chunkTable : List TextChunkRec
  chunkFetchError : Option String
  docNames : Option (List (ℤ × String))
  llm : Except String String
  sim : List ℚ → List ℚ → Option ℚ

/-- The `try` body of `answerFactualQuestion`: embed, fetch (throwing on
a store error), rank top 5, early-return on no candidates, call the
generation service, map a refusal to the fixed not-found response, else
attach citations from the top 3 chunks and threshold the confidence. -/
def factualBody (env : FactualEnv) (documentIds : Option (List ℤ)) :
    Except String FactualAnswer :=
  match env.embedQ with
  | .error e => .error e
  | .ok qEmb =>
    match env.chunkFetchError with
    | some msg => .error ("Failed to fetch chunks: " ++ msg)
    | none =>
      let typedChunks := runChunkQuery env.chunkTable documentIds
      if typedChunks.isEmpty then .ok notAvailableFactual
      else
        let ranked := rankCandidates env.sim qEmb (fun c => c.embedding) typedChunks 5
        if ranked.isEmpty then .ok notAvailableFactual
        else
          let docMap := env.docNames.getD []
          match env.llm with
          | .error e => .error e
          | .ok llmResponse =>
            let parsed := parseFactualResponse llmResponse
            if containsSubstr (lowerStr parsed.answer.toList) "not available".toList then
              .ok notAvailableFactual
            else
              let citations := (ranked.take 3).map (fun r =>
                Citation.mk (docNameOrDefault docMap r.item.document_id) r.item.page r.item.id)
              .ok { answer := parsed.answer
                    quotedEvidence := parsed.quotedEvidence
                    citations := citations
                    confidence := factualConfidence (topSimilarity ranked) }

/-- Model of `answerFactualQuestion`: the body wrapped in the catch-all that turns
any thrown error into the generic error response. -/
def answerFactualQuestion (env : FactualEnv) (documentIds : Option (List ℤ)) :
    FactualAnswer :=
  match factualBody env documentIds with
  | .ok a => a
  | .error _ => errorFactual

/-! ## Financial answer pipeline (`answerFinancialQuestion`) -/

/-- A stored `table_rows` record. -/
structure TableRowRec where
  id : ℤ
  table_id : String
  row_index : ℤ
  cells : List (String × String)
  raw_text : String
  embedding : Option (List ℚ)
deriving DecidableEq

/-- A stored `tables` metadata record (the columns the pipeline selects). -/
structure TableMeta where
  table_id : String
  document_id : ℤ
  page : ℤ
  table_name : Option String
  context_above_lines : Option (List String)
  context_below_lines : Option (List String)
deriving DecidableEq

/-- One evidentiary value of the financial response. -/
structure FinValue where
  tableId : String
  tableName : Option String
  page : ℤ
  rawText : String
  cells : List (String × String)
  contextAboveLines : List String
  contextBelowLines : List String
deriving DecidableEq

/-- A financial citation. -/
structure FinCitation where
  documentName : String
  page : ℤ
  tableId : String
deriving DecidableEq

/-- The financial pipeline's structured response. -/
structure FinancialAnswer where
  answer : String
  values : List FinValue
  citations : List FinCitation
  confidence : Confidence
deriving DecidableEq

/-- The fixed no-evidence response. -/
def notAvailableFinancial : FinancialAnswer :=
  { answer := "Not available in the provided documents."
    values := []
    citations := []
    confidence := .not_found }

/-- The generic response produced by the catch-all handler. -/
def errorFinancial : FinancialAnswer :=
  { answer := "An error occurred while processing your question."
    values := []
    citations := []
    confidence := .not_found }

/-- Model of `identifyTableTypes`: case-insensitive keyword tests against the
question, pushing the matching type tags in the fixed source order. -/
def identifyTableTypes (question : String) : List String :=
  let q := lowerStr question.toList
  (if containsSubstr q "ratio".toList ∨ containsSubstr q "coverage".toList ∨
      containsSubstr q "debt service".toList ∨ containsSubstr q "icr".toList
   then ["RATIOS"] else []) ++
  (if containsSubstr q "ndcf".toList ∨ containsSubstr q "net distributable cash flow".toList
   then ["NDCF"] else []) ++
  (if containsSubstr q "distribution".toList ∨ containsSubstr q "per unit".toList ∨
      containsSubstr q "dpu".toList
   then ["DISTRIBUTION"] else []) ++
  (if containsSubstr q "profit".toList ∨ containsSubstr q "loss".toList ∨
      containsSubstr q "revenue".toList ∨ containsSubstr q "income".toList ∨
      containsSubstr q "expense".toList ∨ containsSubstr q "p&l".toList
   then ["P&L"] else []) ++
  (if containsSubstr q "balance sheet".toList ∨ containsSubstr q "assets".toList ∨
      containsSubstr q "liabilities".toList ∨ containsSubstr q "equity".toList
   then ["BALANCE_SHEET"] else [])

/-- Last-wins lookup in the `tables`-metadata map keyed by `table_id`. -/
def lookupMeta (metas : List TableMeta) (tid : String) : Option TableMeta :=
  metas.reverse.find? (fun m => decide (m.table_id = tid))

/-- The row-level predicate of the table-type filter:
`meta && targetTableTypes.includes(meta.table_name || "")`. -/
def typeFilterPred (targetTypes : List String) (metas : List TableMeta)
    (r : Ranked TableRowRec) : Bool :=
  match lookupMeta metas r.item.table_id with
  | some m => decide ((m.table_name.getD "") ∈ targetTypes)
  | none => false

/-- The table-type filter with its guardrail: applied only when target
types were identified, and discarded (falling back to the unfiltered
ranked rows) when it would leave no candidate. -/
def applyTypeFilter (targetTypes : List String) (metas : List TableMeta)
    (rows : List (Ranked TableRowRec)) : List (Ranked TableRowRec) :=
  if targetTypes = [] then rows
  else
    let f := rows.filter (typeFilterPred targetTypes metas)
    if f = [] then rows else f

/-- The (hard, no-fallback) optional document-id filter. -/
def applyDocFilter (documentIds : Option (List ℤ)) (metas : List TableMeta)
    (rows : List (Ranked TableRowRec)) : List (Ranked TableRowRec) :=
  match documentIds with
  | some ids =>
    if ids = [] then rows
    else
      rows.filter (fun r =>
        match lookupMeta metas r.item.table_id with
        | some m => decide (m.document_id ∈ ids)
        | none => false)
  | none => rows

/-- The `table_rows` select: `limit(100)` and no other filter. -/
def runRowQuery (store : List TableRowRec) : List TableRowRec :=
  store.take 100

/-- Model of `meta?.table_name || null` (an empty name is falsy, hence null). -/
def jsOrNullStr (s : Option String) : Option String :=
  match s with
  | some v => if v = "" then none else some v
  | none => none

/-- One evidentiary value assembled from a ranked row and its table
metadata. -/
def mkFinValue (metas : List TableMeta) (r : Ranked TableRowRec) : FinValue :=
  let meta := lookupMeta metas r.item.table_id
  { tableId := r.item.table_id
    tableName := jsOrNullStr (meta.bind (fun m => m.table_name))
    page := (meta.map (fun m => m.page)).getD 0
    rawText := r.item.raw_text
    cells := r.item.cells
    contextAboveLines := (meta.bind (fun m => m.context_above_lines)).getD []
    contextBelowLines := (meta.bind (fun m => m.context_below_lines)).getD [] }

/-- One citation assembled from an evidentiary value. -/
def mkFinCitation (metas : List TableMeta) (docMap : List (ℤ × String))
    (v : FinValue) : FinCitation :=
  let docName :=
    match lookupMeta metas v.tableId with
    | some m =>
      match lookupStr docMap m.document_id with
      | some s => if s = "" then "Unknown Document" else s
      | none => "Unknown Document"
    | none => "Unknown Document"
  { documentName := docName
    page := v.page
    tableId := v.tableId }

/-- Thresholds `>0.75 → high, >0.5 → medium, else low` on the top similarity. -/
def financialConfidence (t : ℚ) : Confidence :=
  if 0.75 < t then .high else if 0.5 < t then .medium else .low

/-- External-world inputs of one `answerFinancialQuestion` call. -/
structure FinancialEnv where
  adminReady : Bool
  embedQ : Except String (List ℚ)
  rowTable : List TableRowRec
  rowFetchError : Option String
  tableMetas : Option (List TableMeta)
  docNames : Option (List (ℤ × String))
  llm : Except String String
  sim : List ℚ → List ℚ → Option ℚ

/-- The `try` body of `answerFinancialQuestion`: identify target table
types from the question, embed, fetch up to 100 rows (throwing on a
store error), rank top 10, early-return on no candidates, apply the
type filter (with fallback) then the document filter (hard), call the
generation service, map a refusal to the fixed not-found response, else
assemble up to 5 evidentiary values, up to 3 citations, and threshold
the confidence on the top post-filter score. -/
def financialBody (env : FinancialEnv) (question : String)
    (documentIds : Option (List ℤ)) : Except String FinancialAnswer :=
  if !env.adminReady then .error "Supabase admin client not initialized"
  else
    let targetTableTypes := identifyTableTypes question
    match env.embedQ with
    | .error e => .error e
    | .ok qEmb =>
      match env.rowFetchError with
      | some msg => .error ("Failed to fetch table rows: " ++ msg)
      | none =>
        let rows := runRowQuery env.rowTable
        if rows.isEmpty then .ok notAvailableFinancial
        else
          let rowsWithSimilarity := rankCandidates env.sim qEmb (fun r => r.embedding) rows 10
          if rowsWithSimilarity.isEmpty then .ok notAvailableFinancial
          else
            let metas := env.tableMetas.getD []
            let filteredRows :=
              applyDocFilter documentIds metas
                (applyTypeFilter targetTableTypes metas rowsWithSimilarity)
            let docMap := env.docNames.getD []
            match env.llm with
            | .error e => .error e
            | .ok llmResponse =>
              if containsSubstr (lowerStr llmResponse.toList) "not available".toList then
                .ok notAvailableFinancial
              else
                let values := (filteredRows.take 5).map (mkFinValue metas)
                let citations := (values.take 3).map (mkFinCitation metas docMap)
                .ok { answer := llmResponse
                      values := values
                      citations := citations
                      confidence := financialConfidence (topSimilarity filteredRows) }

/-- Model of `answerFinancialQuestion`: the body wrapped in the catch-all that
turns any thrown error into the generic error response. -/
def answerFinancialQuestion (env : FinancialEnv) (question : String)
    (documentIds : Option (List ℤ)) : FinancialAnswer :=
  match financialBody env question documentIds with
  | .ok a => a
  | .error _ => errorFinancial

/-! ## Claim theorems -/

/-- C5: for every question, if the classification call throws an
error or returns a response that names neither category, the question
router returns `financial`; the router's only possible outputs are
`factual` and `financial`. -/
theorem C5_router_default_financial :
    (∀ e : String, classifyQuestion (.error e) = .financial) ∧
    (∀ r : String,
      containsSubstr (lowerStr (jsTrim r.toList)) "financial".toList = false →
      containsSubstr (lowerStr (jsTrim r.toList)) "factual".toList = false →
      classifyQuestion (.ok r) = .financial) ∧
    (∀ resp : Except String String,
      classifyQuestion resp = .factual ∨ classifyQuestion resp = .financial) := by
  refine ⟨fun e => rfl, fun r h1 h2 => ?_, fun resp => ?_⟩
  · simp only [classifyQuestion, h1, Bool.false_eq_true, if_false, h2]
  · cases resp with
    | error e => exact Or.inr rfl
    | ok r =>
      simp only [classifyQuestion]
      split
      · exact Or.inr rfl
      · split
        · exact Or.inl rfl
        · exact Or.inr rfl

/-- Witness for C5 at concrete responses. -/
theorem C5_router_default_financial_witness :
    classifyQuestion (.ok "neither of the two") = .financial ∧
    classifyQuestion (.error "service timeout") = .financial :=
  ⟨C5_router_default_financial.2.1 "neither of the two" (by decide) (by decide),
   C5_router_default_financial.1 "service timeout"⟩

/-- C9: the candidate set fetched from the store before similarity
ranking is capped at 100 records in both pipelines (`limit(100)` on the
chunk query and on the row query), so ranking and answer construction
consider at most 100 stored records per request regardless of the size
of the store. -/
theorem C9_candidate_fetch_capped :
    ∀ (chunkStore : List TextChunkRec) (documentIds : Option (List ℤ))
      (rowStore : List TableRowRec),
      (runChunkQuery chunkStore documentIds).length ≤ 100 ∧
      (runRowQuery rowStore).length ≤ 100 := by
  intro cs d rs
  exact ⟨List.length_take_le 100 _, List.length_take_le 100 _⟩

/-- C4: when target table types were identified but the type filter
would leave zero candidates among the ranked rows, the filter is
discarded and the unfiltered ranked set is used; in particular the
post-type-filter candidate set is never empty when the ranked set was
non-empty. -/
theorem C4_type_filter_fallback :
    ∀ (targetTypes : List String) (metas : List TableMeta)
      (rows : List (Ranked TableRowRec)),
      targetTypes ≠ [] →
      (rows.filter (typeFilterPred targetTypes metas) = [] →
        applyTypeFilter targetTypes metas rows = rows) ∧
      (rows ≠ [] → applyTypeFilter targetTypes metas rows ≠ []) := by
  intro tt metas rows htt
  constructor
  · intro hf
    simp [applyTypeFilter, if_neg htt, hf]
  · intro hr
    simp only [applyTypeFilter, if_neg htt]
    by_cases hf : rows.filter (typeFilterPred tt metas) = []
    · simp [hf, hr]
    · simp [hf]

/-- A sample ranked row (no matching metadata, so every type filter
rejects it) used by the C4 witness. -/
def sampleRankedRow : Ranked TableRowRec :=
  { item :=
      { id := 1
        table_id := "doc1_p52_t0"
        row_index := 0
        cells := [("rowLabel", "Debt service coverage ratio")]
        raw_text := "Debt service coverage ratio | 1.45"
        embedding := some [1] }
    similarity := some 1 }

/-- Witness for C4: with no metadata every candidate fails the RATIOS
filter, and the fallback keeps the full ranked set. -/
theorem C4_type_filter_fallback_witness :
    applyTypeFilter ["RATIOS"] [] [sampleRankedRow] = [sampleRankedRow] ∧
    applyTypeFilter ["RATIOS"] [] [sampleRankedRow] ≠ [] := by
  have h := C4_type_filter_fallback ["RATIOS"] [] [sampleRankedRow] (by decide)
  exact ⟨h.1 (by decide), h.2 (by simp)⟩

/-- C6: any error thrown inside either pipeline body is caught and
converted to the fixed structured error response (generic error answer,
empty citations and evidence, confidence `not_found`); the wrappers are
total functions, so no exception propagates to the caller. -/
theorem C6_errors_caught :
    (∀ (env : FactualEnv) (d : Option (List ℤ)) (e : String),
      factualBody env d = .error e → answerFactualQuestion env d = errorFactual) ∧
    (∀ (env : FinancialEnv) (q : String) (d : Option (List ℤ)) (e : String),
      financialBody env q d = .error e →
        answerFinancialQuestion env q d = errorFinancial) ∧
    errorFactual.confidence = .not_found ∧ errorFactual.citations = [] ∧
    errorFinancial.confidence = .not_found ∧ errorFinancial.citations = [] := by
  refine ⟨fun env d e h => ?_, fun env q d e h => ?_, rfl, rfl, rfl, rfl⟩
  · simp only [answerFactualQuestion, h]
  · simp only [answerFinancialQuestion, h]

/-- A factual environment whose embedding call throws. -/
def failingFactualEnv : FactualEnv :=
  { embedQ := .error "embedding service unavailable"
    chunkTable := []
    chunkFetchError := none
    docNames := none
    llm := .error "unused"
    sim := fun _ _ => none }

/-- A financial environment whose embedding call throws. -/
def failingFinancialEnv : FinancialEnv :=
  { adminReady := true
    embedQ := .error "embedding service unavailable"
    rowTable := []
    rowFetchError := none
    tableMetas := none
    docNames := none
    llm := .error "unused"
    sim := fun _ _ => none }

/-- Witness for C6: both wrappers convert a thrown embedding error into
the fixed error response. -/
theorem C6_errors_caught_witness :
    answerFactualQuestion failingFactualEnv none = errorFactual ∧
    answerFinancialQuestion failingFinancialEnv "q" none = errorFinancial :=
  ⟨C6_errors_caught.1 failingFactualEnv none "embedding service unavailable" rfl,
   C6_errors_caught.2.1 failingFinancialEnv "q" none "embedding service unavailable" rfl⟩

/-- C8: the factual confidence tier is computed from the top
ranked chunk score with thresholds `>0.8` / `>0.6`, the financial tier
from the top post-filter row score with thresholds `>0.75` / `>0.5`,
and in both pipelines a generated answer containing the refusal phrase
yields confidence `not_found` regardless of the similarity score. -/
theorem C8_confidence_thresholds :
    (∀ (env : FactualEnv) (d : Option (List ℤ)) (resp : String),
      env.llm = .ok resp →
      containsSubstr (lowerStr (parseFactualResponse resp).answer.toList)
          "not available".toList = true →
      (answerFactualQuestion env d).confidence = .not_found) ∧
    (∀ (env : FactualEnv) (d : Option (List ℤ)) (qEmb : List ℚ) (resp : String),
      env.embedQ = .ok qEmb →
      env.chunkFetchError = none →
      env.llm = .ok resp →
      containsSubstr (lowerStr (parseFactualResponse resp).answer.toList)
          "not available".toList = false →
      rankCandidates env.sim qEmb (fun c => c.embedding)
          (runChunkQuery env.chunkTable d) 5 ≠ [] →
      (answerFactualQuestion env d).confidence =
        factualConfidence (topSimilarity
          (rankCandidates env.sim qEmb (fun c => c.embedding)
            (runChunkQuery env.chunkTable d) 5))) ∧
    (∀ (env : FinancialEnv) (q : String) (d : Option (List ℤ)) (resp : String),
      env.llm = .ok resp →
      containsSubstr (lowerStr resp.toList) "not available".toList = true →
      (answerFinancialQuestion env q d).confidence = .not_found) ∧
    (∀ (env : FinancialEnv) (q : String) (d : Option (List ℤ)) (qEmb : List ℚ) (resp : String),
      env.adminReady = true →
      env.embedQ = .ok qEmb →
      env.rowFetchError = none →
      env.llm = .ok resp →
      containsSubstr (lowerStr resp.toList) "not available".toList = false →
      rankCandidates env.sim qEmb (fun r => r.embedding)
          (runRowQuery env.rowTable) 10 ≠ [] →
      (answerFinancialQuestion env q d).confidence =
        financialConfidence (topSimilarity
          (applyDocFilter d (env.tableMetas.getD [])
            (applyTypeFilter (identifyTableTypes q) (env.tableMetas.getD [])
              (rankCandidates env.sim qEmb (fun r => r.embedding)
                (runRowQuery env.rowTable) 10))))) ∧
    (∀ t : ℚ,
      (0.8 < t → factualConfidence t = .high) ∧
      (t ≤ 0.8 → 0.6 < t → factualConfidence t = .medium) ∧
      (t ≤ 0.6 → factualConfidence t = .low) ∧
      (0.75 < t → financialConfidence t = .high) ∧
      (t ≤ 0.75 → 0.5 < t → financialConfidence t = .medium) ∧
      (t ≤ 0.5 → financialConfidence t = .low)) := by
  refine ⟨?_, ?_, ?_, ?_, ?_⟩
  · -- factual refusal
    intro env d resp hL hr
    rcases hB : factualBody env d with e | a
    · simp [answerFactualQuestion, hB]
      rfl
    · simp only [answerFactualQuestion, hB]
      rcases hE : env.embedQ with e' | qEmb
      · rw [factualBody.eq_def, hE] at hB
        cases hB
      · rw [factualBody.eq_def, hE] at hB
        rcases hF : env.chunkFetchError with _ | msg
        · rw [hF] at hB
          simp only [hL, hr, if_true] at hB
          split at hB
          · cases hB
            rfl
          · split at hB
            · cases hB
              rfl
            · cases hB
              rfl
        · rw [hF] at hB
          cases hB
  · -- factual success
    intro env d qEmb resp hE hF hL hr hrank
    have hne : (runChunkQuery env.chunkTable d).isEmpty = false := by
      rw [List.isEmpty_eq_false]
      intro h
      apply hrank
      simp [rankCandidates, h, sortDesc]
    have hre : (rankCandidates env.sim qEmb (fun c => c.embedding)
        (runChunkQuery env.chunkTable d) 5).isEmpty = false :=
      List.isEmpty_eq_false.mpr hrank
    rcases hB : factualBody env d with e | a
    · rw [factualBody.eq_def, hE, hF] at hB
      simp only [hne, Bool.false_eq_true, if_false, hre, hL, hr] at hB
      simp at hB
    · simp only [answerFactualQuestion, hB]
      rw [factualBody.eq_def, hE, hF] at hB
      simp only [hne, Bool.false_eq_true, if_false, hre, hL, hr] at hB
      cases hB
      rfl
  · -- financial refusal
    intro env q d resp hL hr
    rcases hB : financialBody env q d with e | a
    · simp [answerFinancialQuestion, hB]
      rfl
    · simp only [answerFinancialQuestion, hB]
      by_cases hA : env.adminReady
      · rcases hE : env.embedQ with e' | qEmb
        · rw [financialBody.eq_def, hE] at hB
          simp only [hA, Bool.not_true, Bool.false_eq_true, if_false] at hB
          simp at hB
        · rw [financialBody.eq_def, hE] at hB
          simp only [hA, Bool.not_true, Bool.false_eq_true, if_false] at hB
          rcases hF : env.rowFetchError with _ | msg
          · rw [hF] at hB
            simp only [hL, hr, if_true] at hB
            split at hB
            · cases hB
              rfl
            · split at hB
              · cases hB
                rfl
              · cases hB
                rfl
          · rw [hF] at hB
            cases hB
      · rw [financialBody.eq_def] at hB
        rw [Bool.not_eq_true] at hA
        simp only [hA, Bool.not_false, if_true] at hB
        simp at hB
  · -- financial success
    intro env q d qEmb resp hA hE hF hL hr hrank
    have hne : (runRowQuery env.rowTable).isEmpty = false := by
      rw [List.isEmpty_eq_false]
      intro h
      apply hrank
      simp [rankCandidates, h, sortDesc]
    have hre : (rankCandidates env.sim qEmb (fun r => r.embedding)
        (runRowQuery env.rowTable) 10).isEmpty = false :=
      List.isEmpty_eq_false.mpr hrank
    rcases hB : financialBody env q d with e | a
    · rw [financialBody.eq_def, hE] at hB
      simp only [hA, Bool.not_true, Bool.false_eq_true, if_false, hF,
        hne, hre, hL, hr] at hB
      simp at hB
    · simp only [answerFinancialQuestion, hB]
      rw [financialBody.eq_def, hE] at hB
      simp only [hA, Bool.not_true, Bool.false_eq_true, if_false, hF,
        hne, hre, hL, hr] at hB
      cases hB
      rfl
  · -- thresholds
    intro t
    refine ⟨fun h => ?_, fun h1 h2 => ?_, fun h => ?_, fun h => ?_, fun h1 h2 => ?_, fun h => ?_⟩
    · simp [factualConfidence, h]
    · simp [factualConfidence, not_lt.mpr h1, h2]
    · simp [factualConfidence, not_lt.mpr h, not_lt.mpr (le_trans h (by norm_num : (0.6:ℚ) ≤ 0.8))]
    · simp [financialConfidence, h]
    · simp [financialConfidence, not_lt.mpr h1, h2]
    · simp [financialConfidence, not_lt.mpr h, not_lt.mpr (le_trans h (by norm_num : (0.5:ℚ) ≤ 0.75))]


/-- A stored chunk with an embedding, for the C8 witness. -/
def sampleChunk : TextChunkRec :=
  { id := 7
    document_id := 3
    page := 12
    chunk_index := 0
    text := "Statutory Auditors, Walker Chandiok"
    embedding := some [1] }

/-- A factual environment for a fully successful run. -/
def successFactualEnv : FactualEnv :=
  { embedQ := .ok [1]
    chunkTable := [sampleChunk]
    chunkFetchError := none
    docNames := some [(3, "Annual Report")]
    llm := .ok "Answer: Walker Chandiok"
    sim := fun _ _ => some 1 }

/-- A stored table row for the financial witnesses. -/
def sampleTableRow : TableRowRec :=
  { id := 1
    table_id := "doc1_p52_t0"
    row_index := 0
    cells := [("rowLabel", "Debt service coverage ratio")]
    raw_text := "Debt service coverage ratio | 1.45"
    embedding := some [1] }

/-- Metadata naming the sample row's table RATIOS. -/
def sampleMeta : TableMeta :=
  { table_id := "doc1_p52_t0"
    document_id := 1
    page := 52
    table_name := some "RATIOS"
    context_above_lines := none
    context_below_lines := none }

/-- A financial environment for a fully successful run. -/
def successFinancialEnv : FinancialEnv :=
  { adminReady := true
    embedQ := .ok [1]
    rowTable := [sampleTableRow]
    rowFetchError := none
    tableMetas := some [sampleMeta]
    docNames := some [(1, "Q3 Results")]
    llm := .ok "Debt service coverage ratio: 1.45 times"
    sim := fun _ _ => some 1 }

/-- Witness for C8: a perfect-similarity run yields `high` in both
pipelines. -/
theorem C8_confidence_thresholds_witness :
    (answerFactualQuestion successFactualEnv none).confidence = Confidence.high ∧
    (answerFinancialQuestion successFinancialEnv
        "What is the debt service coverage ratio?" none).confidence = Confidence.high := by
  constructor
  · have h := C8_confidence_thresholds.2.1 successFactualEnv none [1]
      "Answer: Walker Chandiok" rfl rfl rfl (by decide) (by decide)
    rw [h]
    have htop : topSimilarity (rankCandidates successFactualEnv.sim [1]
        (fun c => c.embedding) (runChunkQuery successFactualEnv.chunkTable none) 5) = 1 := by
      decide
    rw [htop]
    norm_num [factualConfidence]
  · have h := C8_confidence_thresholds.2.2.2.1 successFinancialEnv
      "What is the debt service coverage ratio?" none [1]
      "Debt service coverage ratio: 1.45 times" rfl rfl rfl rfl (by decide) (by decide)
    rw [h]
    have htop : topSimilarity (applyDocFilter none (successFinancialEnv.tableMetas.getD [])
        (applyTypeFilter (identifyTableTypes "What is the debt service coverage ratio?")
          (successFinancialEnv.tableMetas.getD [])
          (rankCandidates successFinancialEnv.sim [1] (fun r => r.embedding)
            (runRowQuery successFinancialEnv.rowTable) 10))) = 1 := by
      decide
    rw [htop]
    norm_num [financialConfidence]


/-- The self dot product is a sum of squares, hence non-negative. -/
lemma dotp_self_nonneg (v : List ℝ) : 0 ≤ dotp v v := by
  induction v with
  | nil => simp [dotp]
  | cons x xs ih =>
    have : dotp (x :: xs) (x :: xs) = x * x + dotp xs xs := by
      simp [dotp]
    rw [this]
    exact add_nonneg (mul_self_nonneg x) ih

/-- C1 counterexample: the ranking similarity of two zero-magnitude
vectors is `NaN` (the code divides `0` by `0`), not the value `0` the
claim requires. -/
theorem C1_zero_vector_counterexample :
    cosineSimilarity [(0 : ℝ)] [(0 : ℝ)] = none ∧
    cosineSimilarity [(0 : ℝ)] [(0 : ℝ)] ≠ some 0 := by
  have h : cosineSimilarity [(0 : ℝ)] [(0 : ℝ)] = none := by
    simp [cosineSimilarity, dotp]
  exact ⟨h, by rw [h]; simp⟩

/-- C1 amended: `similarity(v, v) = 1` for every vector of
non-zero magnitude, and the similarity never throws; but a
zero-magnitude operand makes the computed score `NaN` (the source
divides by zero with no guard) rather than `0` — downstream the sort
comparator and the confidence read coerce that `NaN` to `0` via `|| 0`
(see `simCoerce`). -/
theorem C1_cosine_similarity_amended :
    (∀ v : List ℝ, dotp v v ≠ 0 → cosineSimilarity v v = some 1) ∧
    (∀ q c : List ℝ, dotp q q = 0 ∨ dotp c c = 0 → cosineSimilarity q c = none) ∧
    simCoerce (none : Option ℚ) = 0 := by
  refine ⟨fun v hv => ?_, fun q c h => ?_, rfl⟩
  · have hnn : 0 ≤ dotp v v := dotp_self_nonneg v
    have hd : Real.sqrt (dotp v v) * Real.sqrt (dotp v v) = dotp v v :=
      Real.mul_self_sqrt hnn
    simp only [cosineSimilarity, hd]
    rw [if_neg hv]
    rw [div_self hv]
  · rcases h with h | h
    · simp [cosineSimilarity, h, Real.sqrt_zero, zero_mul]
    · simp [cosineSimilarity, h, Real.sqrt_zero, mul_zero]

/-- Witness for C1 at concrete vectors. -/
theorem C1_cosine_similarity_amended_witness :
    cosineSimilarity [(1 : ℝ)] [(1 : ℝ)] = some 1 ∧
    cosineSimilarity [(0 : ℝ)] [(1 : ℝ)] = none :=
  ⟨C1_cosine_similarity_amended.1 [1] (by norm_num [dotp]),
   C1_cosine_similarity_amended.2.1 [0] [1] (Or.inl (by norm_num [dotp]))⟩


/-- The payload of an `enumFrom` entry is an element of the list. -/
lemma mem_of_mem_enumFrom {α : Type} {p : ℕ × α} :
    ∀ {l : List α} {n : ℕ}, p ∈ l.enumFrom n → p.2 ∈ l := by
  intro l
  induction l with
  | nil => intro n h; cases h
  | cons x xs ih =>
    intro n h
    rw [List.enumFrom_cons] at h
    rcases List.mem_cons.mp h with rfl | h2
    · exact List.mem_cons_self _ _
    · exact List.mem_cons_of_mem _ (ih h2)

/-- Every produced `NormalizedRow` takes its `value` verbatim from a
grid row, and its `numericValue` is exactly the numeric parse of that
raw value. -/
lemma normalizeTableRows_value_memimp (grid : List (List String))
    (nr : NormalizedRow) (h : nr ∈ normalizeTableRows grid) :
    ∃ row ∈ grid, nr.value ∈ row ∧
      nr.numericValue = parseNumericValue nr.value.toList := by
  rw [normalizeTableRows] at h
  split at h
  · cases h
  · rw [List.mem_flatMap] at h
    obtain ⟨rowPair, hrp, hcell⟩ := h
    rw [List.mem_map] at hcell
    obtain ⟨cellPair, hcp, rfl⟩ := hcell
    refine ⟨rowPair.2, ?_, ?_, rfl⟩
    · exact (List.drop_subset 1 grid) (mem_of_mem_enumFrom hrp)
    · exact mem_of_mem_enumFrom (List.mem_of_mem_drop hcp)

/-- C2 counterexample: the string "1.45 times" is a `"times"`-suffixed cell
string, yet `parseNumericValue` yields `1.45` (JS `parseFloat` parses
the longest numeric prefix and ignores trailing garbage), not the null
numeric value the claim requires. -/
theorem C2_times_suffix_counterexample :
    parseNumericValue "1.45 times".toList = some (JSNum.fin 1.45) ∧
    parseNumericValue "1.45 times".toList ≠ none := by
  have h : parseNumericValue "1.45 times".toList = some (JSNum.fin 1.45) := by
    simp +decide only [parseNumericValue, parseFloat, jsTrim, trimLeft, trimRight, parenWrapped,
      parseExponent, isDigit, isJsWhitespace, isLineTerminator, String.toList,
      List.filter, List.dropWhile, List.takeWhile, List.reverse, List.all, List.head?, List.drop,
      List.isPrefixOf, List.length, jsNeg]
    norm_num [show digitsVal ['1'] = 1 from by decide,
              show digitsVal ['4', '5'] = 45 from by decide]
  exact ⟨h, by rw [h]; simp⟩

/-- C2 amended: the string "(123.45)" parses to `-123.45`, `"1,234"` to
`1234`, `"12%"` to `12`; a cell with no numeric prefix after cleaning
(e.g. `"times"`) yields a null numeric value — but a numeric prefix
followed by `"times"` (e.g. `"1.45 times"`, see the counterexample)
yields that prefix's value rather than null. Parsing is a total
function (never raises), and the normalizer always stores the raw cell
string unchanged alongside the parse result. -/
theorem C2_numeric_parsing_amended :
    parseNumericValue "(123.45)".toList = some (JSNum.fin (-123.45)) ∧
    parseNumericValue "1,234".toList = some (JSNum.fin 1234) ∧
    parseNumericValue "12%".toList = some (JSNum.fin 12) ∧
    parseNumericValue "times".toList = none ∧
    (∀ (grid : List (List String)) (nr : NormalizedRow),
      nr ∈ normalizeTableRows grid →
      ∃ row ∈ grid, nr.value ∈ row ∧
        nr.numericValue = parseNumericValue nr.value.toList) := by
  refine ⟨?_, ?_, ?_, ?_, normalizeTableRows_value_memimp⟩
  · simp +decide only [parseNumericValue, parseFloat, jsTrim, trimLeft, trimRight, parenWrapped,
      parseExponent, isDigit, isJsWhitespace, isLineTerminator, String.toList,
      List.filter, List.dropWhile, List.takeWhile, List.reverse, List.all, List.head?, List.drop,
      List.isPrefixOf, List.length, jsNeg]
    norm_num [show digitsVal ['1', '2', '3'] = 123 from by decide,
              show digitsVal ['4', '5'] = 45 from by decide]
  · simp +decide only [parseNumericValue, parseFloat, jsTrim, trimLeft, trimRight, parenWrapped,
      parseExponent, isDigit, isJsWhitespace, isLineTerminator, String.toList,
      List.filter, List.dropWhile, List.takeWhile, List.reverse, List.all, List.head?, List.drop,
      List.isPrefixOf, List.length, jsNeg]
    norm_num [show digitsVal ['1', '2', '3', '4'] = 1234 from by decide,
              show digitsVal [] = 0 from by decide]
  · simp +decide only [parseNumericValue, parseFloat, jsTrim, trimLeft, trimRight, parenWrapped,
      parseExponent, isDigit, isJsWhitespace, isLineTerminator, String.toList,
      List.filter, List.dropWhile, List.takeWhile, List.reverse, List.all, List.head?, List.drop,
      List.isPrefixOf, List.length, jsNeg]
    norm_num [show digitsVal ['1', '2'] = 12 from by decide,
              show digitsVal [] = 0 from by decide]
  · simp +decide only [parseNumericValue, parseFloat, jsTrim, trimLeft, trimRight, parenWrapped,
      parseExponent, isDigit, isJsWhitespace, isLineTerminator, String.toList,
      List.filter, List.dropWhile, List.takeWhile, List.reverse, List.all, List.head?, List.drop,
      List.isPrefixOf, List.length, jsNeg]

/-- The non-numeric cell record produced for grid
`[["h", "A"], ["r", "x"]]`. -/
def sampleNonNumericRow : NormalizedRow :=
  { rowLabel := "r"
    columnLabel := "A"
    period := some "A"
    value := "x"
    numericValue := none
    rowIndex := 1
    columnIndex := 1 }

/-- Witness for C2's universal raw-preservation conjunct at a concrete
grid and row. -/
theorem C2_numeric_parsing_amended_witness :
    ∃ row ∈ [["h", "A"], ["r", "x"]], sampleNonNumericRow.value ∈ row ∧
      sampleNonNumericRow.numericValue =
        parseNumericValue sampleNonNumericRow.value.toList :=
  C2_numeric_parsing_amended.2.2.2.2 [["h", "A"], ["r", "x"]]
    sampleNonNumericRow (by decide)


/-- First components of `enumFrom` form the matching `range'`. -/
lemma map_fst_enumFrom {α : Type} :
    ∀ (l : List α) (n : ℕ), (l.enumFrom n).map Prod.fst = List.range' n l.length
  | [], _ => rfl
  | x :: xs, n => by
    rw [List.enumFrom_cons, List.map_cons, List.length_cons, List.range'_succ,
      map_fst_enumFrom xs (n + 1)]

/-- A `flatMap` over `enumFrom` whose function only uses the index is a
`flatMap` over the corresponding `range'`. -/
lemma flatMap_enumFrom_fst {α β : Type} :
    ∀ (l : List α) (n : ℕ) (f : ℕ × α → List β) (g : ℕ → List β),
      (∀ p ∈ l.enumFrom n, f p = g p.1) →
      (l.enumFrom n).flatMap f = (List.range' n l.length).flatMap g
  | [], _, _, _, _ => rfl
  | x :: xs, n, f, g, hf => by
    rw [List.enumFrom_cons, List.flatMap_cons, List.length_cons, List.range'_succ,
      List.flatMap_cons]
    rw [hf (n, x) (by simp [List.enumFrom_cons])]
    rw [flatMap_enumFrom_fst xs (n + 1) f g
      (fun p hp => hf p (by rw [List.enumFrom_cons]; exact List.mem_cons_of_mem _ hp))]

/-- C3: a grid with fewer than 2 rows normalizes to the empty list;
a rectangular grid with `R ≥ 2` rows and `C ≥ 2` columns normalizes to
exactly `(R-1)*(C-1)` entries whose `(rowIndex, columnIndex)` pairs
enumerate `{1..R-1} × {1..C-1}` in row-major order with the column
index ascending within each row; and normalization is a pure function
(identical grids give identical outputs). -/
theorem C3_normalization_shape :
    (∀ grid : List (List String), grid.length < 2 → normalizeTableRows grid = []) ∧
    (∀ (grid : List (List String)) (R C : ℕ),
      2 ≤ R → 2 ≤ C → grid.length = R → (∀ row ∈ grid, row.length = C) →
      ((normalizeTableRows grid).map (fun nr => (nr.rowIndex, nr.columnIndex)) =
        (List.range' 1 (R - 1)).flatMap (fun i =>
          (List.range' 1 (C - 1)).map (fun j => (i, j))) ∧
       (normalizeTableRows grid).length = (R - 1) * (C - 1))) ∧
    (∀ g1 g2 : List (List String), g1 = g2 →
      normalizeTableRows g1 = normalizeTableRows g2) := by
  refine ⟨fun grid h => ?_, fun grid R C hR hC hlen hrect => ?_, fun g1 g2 h => by rw [h]⟩
  · rw [normalizeTableRows, if_pos h]
  · have h2 : ¬ grid.length < 2 := by omega
    have hmap : (normalizeTableRows grid).map (fun nr => (nr.rowIndex, nr.columnIndex)) =
        (List.range' 1 (R - 1)).flatMap (fun i =>
          (List.range' 1 (C - 1)).map (fun j => (i, j))) := by
      rw [normalizeTableRows, if_neg h2]
      rw [List.map_flatMap]
      have hdlen : (grid.drop 1).length = R - 1 := by
        rw [List.length_drop, hlen]
      rw [← hdlen]
      apply flatMap_enumFrom_fst
      intro p hp
      have hmem : p.2 ∈ grid := (List.drop_subset 1 grid) (mem_of_mem_enumFrom hp)
      have hplen : p.2.length = C := hrect p.2 hmem
      obtain ⟨y, ys, hys⟩ : ∃ y ys, p.2 = y :: ys := by
        cases hx : p.2 with
        | nil => rw [hx] at hplen; simp at hplen; omega
        | cons y ys => exact ⟨y, ys, rfl⟩
      rw [List.map_map, hys, List.enumFrom_cons, List.drop_succ_cons, List.drop_zero]
      have hyslen : ys.length = C - 1 := by
        rw [hys] at hplen
        simp at hplen
        omega
      have hcomp : ((fun nr => (nr.rowIndex, nr.columnIndex)) ∘
          (fun cellPair : ℕ × String =>
            mkNormalizedRow (grid.headD []) (y :: ys) p.1 cellPair.1 cellPair.2)) =
          (fun j => (p.1, j)) ∘ (Prod.fst : ℕ × String → ℕ) := by
        funext cp
        rfl
      rw [hcomp, ← List.map_map, map_fst_enumFrom, hyslen]
    refine ⟨hmap, ?_⟩
    have hlm : (normalizeTableRows grid).length =
        ((normalizeTableRows grid).map (fun nr => (nr.rowIndex, nr.columnIndex))).length := by
      rw [List.length_map]
    rw [hlm, hmap, List.length_flatMap]
    have h : (List.length ∘ fun i : ℕ => (List.range' 1 (C - 1)).map (fun j => (i, j))) =
        fun _ : ℕ => C - 1 := by
      funext i
      simp
    rw [h, List.map_const', List.sum_replicate, smul_eq_mul, List.length_range']

/-- A concrete non-numeric 3×3 grid used by the C3 witness. -/
def sampleGrid3 : List (List String) :=
  [["h", "A", "B"], ["r1", "x", "y"], ["r2", "z", "w"]]

/-- Witness for C3 at a concrete 3×3 grid. -/
theorem C3_normalization_shape_witness :
    ((normalizeTableRows sampleGrid3).map (fun nr => (nr.rowIndex, nr.columnIndex)) =
      (List.range' 1 2).flatMap (fun i => (List.range' 1 2).map (fun j => (i, j))) ∧
     (normalizeTableRows sampleGrid3).length = 2 * 2) ∧
    normalizeTableRows [["only row"]] = [] :=
  ⟨C3_normalization_shape.2.1 sampleGrid3 3 3 (by norm_num) (by norm_num) (by decide)
      (by decide),
   C3_normalization_shape.1 [["only row"]] (by decide)⟩


/-- The left trim is a suffix of the input. -/
lemma trimLeft_suffix (s : List Char) : trimLeft s <:+ s :=
  List.dropWhile_suffix _

/-- The right trim is a prefix of the input. -/
lemma trimRight_isPre (s : List Char) : trimRight s <+: s := by
  obtain ⟨t, ht⟩ := List.dropWhile_suffix (l := s.reverse) (p := isJsWhitespace)
  refine ⟨t.reverse, ?_⟩
  have := congrArg List.reverse ht
  simpa [trimRight] using this

/-- A trimmed string is an infix of the original. -/
lemma jsTrim_isInf (s : List Char) : jsTrim s <:+: s :=
  List.IsInfix.trans (trimRight_isPre (trimLeft s)).isInfix (trimLeft_suffix s).isInfix

/-- A window slice is an infix of the page text. -/
lemma slice_isInf (text : List Char) (a b : ℕ) : (text.drop a).take b <:+: text :=
  List.IsInfix.trans (List.take_prefix b (text.drop a)).isInfix (List.drop_suffix a text).isInfix

/-- Specification of every piece produced by the window loop: its start
is `startPos` plus a multiple of the step, its end is the window end
clamped to the page, its text is the trimmed window slice, and its
trimmed length exceeds 50. -/
lemma chunkPageLoop_mem_spec (cs ov : ℕ) (text : List Char) :
    ∀ (fuel startPos : ℕ), text.length - startPos ≤ fuel →
      ∀ t ∈ chunkPageLoop cs ov text startPos,
        (∃ k, t.1 = startPos + k * (cs - ov)) ∧
        t.2.1 = min (t.1 + cs) text.length ∧
        t.2.2 = jsTrim ((text.drop t.1).take (t.2.1 - t.1)) ∧
        50 < t.2.2.length := by
  intro fuel
  induction fuel with
  | zero =>
    intro startPos hfuel t ht
    rw [chunkPageLoop] at ht
    rw [dif_neg (by omega)] at ht
    cases ht
  | succ n ih =>
    intro startPos hfuel t ht
    rw [chunkPageLoop] at ht
    by_cases h1 : startPos < text.length
    · rw [dif_pos h1] at ht
      simp only at ht
      have hhere : ∀ t' ∈ (if 50 < (jsTrim ((text.drop startPos).take
          (min (startPos + cs) text.length - startPos))).length then
            [(startPos, min (startPos + cs) text.length,
              jsTrim ((text.drop startPos).take (min (startPos + cs) text.length - startPos)))]
          else []),
          (∃ k, t'.1 = startPos + k * (cs - ov)) ∧
          t'.2.1 = min (t'.1 + cs) text.length ∧
          t'.2.2 = jsTrim ((text.drop t'.1).take (t'.2.1 - t'.1)) ∧
          50 < t'.2.2.length := by
        intro t' ht'
        split at ht'
        · rcases List.mem_singleton.mp ht' with rfl
          refine ⟨⟨0, by omega⟩, rfl, rfl, ?_⟩
          assumption
        · cases ht'
      by_cases h2 : text.length ≤ min (startPos + cs) text.length
      · rw [dif_pos h2] at ht
        exact hhere t ht
      · rw [dif_neg h2] at ht
        by_cases h3 : ov < cs
        · rw [dif_pos h3] at ht
          rcases List.mem_append.mp ht with hmem | hmem
          · exact hhere t hmem
          · have hstep : 1 ≤ cs - ov := by omega
            have hend : startPos + cs < text.length := by omega
            have hrec := ih (startPos + (cs - ov)) (by omega) t hmem
            obtain ⟨⟨k, hk⟩, hb, hc, hd⟩ := hrec
            refine ⟨⟨k + 1, ?_⟩, hb, hc, hd⟩
            rw [hk]
            ring
        · rw [dif_neg h3] at ht
          exact hhere t ht
    · rw [dif_neg h1] at ht
      cases ht
/-- A page no longer than the window produces a single candidate window
(the whole page), kept only when its trimmed length exceeds 50. -/
lemma chunkPageLoop_short (cs ov : ℕ) (text : List Char) (h : text.length ≤ cs) :
    chunkPageLoop cs ov text 0 =
      if 50 < (jsTrim text).length then [(0, text.length, jsTrim text)] else [] := by
  rw [chunkPageLoop]
  by_cases h0 : 0 < text.length
  · rw [dif_pos h0]
    have hmin : min (0 + cs) text.length = text.length := by omega
    simp only [hmin]
    rw [dif_pos (le_refl text.length)]
    simp only [List.drop_zero, Nat.sub_zero, List.take_length]
  · rw [dif_neg h0]
    have : text = [] := List.length_eq_zero.mp (by omega)
    subst this
    simp [jsTrim, trimLeft, trimRight]

/-- The `chunkText` output described piece-wise: each chunk comes from one
page, carries that page's number, an infix of that page's text longer
than 50 characters once trimmed, and a start offset that is a multiple
of the window step from the page start. -/
lemma chunkText_mem_spec (pages : List PageText) (cs ov : ℕ) :
    ∀ c ∈ chunkText pages cs ov,
      ∃ p ∈ pages, c.page = p.page ∧ c.text <:+: p.text ∧
        50 < c.text.length ∧
        ∃ k, c.startChar = p.startIndex + k * (cs - ov) := by
  intro c hc
  simp only [chunkText] at hc
  rw [List.mem_map] at hc
  obtain ⟨ip, hip, rfl⟩ := hc
  have hmem : ip.2 ∈ pages.flatMap (fun p =>
      (chunkPageLoop cs ov p.text 0).map (fun t => (p, t))) :=
    mem_of_mem_enumFrom hip
  rw [List.mem_flatMap] at hmem
  obtain ⟨p, hp, hpt⟩ := hmem
  rw [List.mem_map] at hpt
  obtain ⟨t, ht, hpt2⟩ := hpt
  have hspec := chunkPageLoop_mem_spec cs ov p.text p.text.length 0 (by omega) t ht
  obtain ⟨⟨k, hk⟩, hb, hc2, hd⟩ := hspec
  refine ⟨p, hp, ?_, ?_, ?_, ⟨k, ?_⟩⟩
  · rw [← hpt2]
  · rw [← hpt2]
    simp only
    rw [hc2]
    exact List.IsInfix.trans (jsTrim_isInf _) (slice_isInf p.text t.1 (t.2.1 - t.1))
  · rw [← hpt2]
    simpa using hd
  · rw [← hpt2]
    simp only
    omega

/-- The chunk indices are assigned consecutively from 0 in output
order. -/
lemma chunkText_indices (pages : List PageText) (cs ov : ℕ) :
    (chunkText pages cs ov).map (fun c => c.chunkIndex) =
      List.range (chunkText pages cs ov).length := by
  rw [chunkText]
  simp only [List.map_map, List.length_map]
  have : ((fun c : TextChunk => c.chunkIndex) ∘ fun ip :
      ℕ × (PageText × (ℕ × ℕ × List Char)) =>
      ({ page := ip.2.1.page, chunkIndex := ip.1, text := ip.2.2.2.2,
         startChar := ip.2.1.startIndex + ip.2.2.1,
         endChar := ip.2.1.startIndex + ip.2.2.2.1 } : TextChunk)) = Prod.fst := by
    funext ip
    rfl
  rw [this, map_fst_enumFrom, List.enumFrom_length, List.range_eq_range']

/-- A single page shorter than the window yields exactly one chunk when
its trimmed text is long enough, else none. -/
lemma chunkText_single_short (p : PageText) (cs ov : ℕ) (h : p.text.length < cs) :
    chunkText [p] cs ov =
      if 50 < (jsTrim p.text).length then
        [{ page := p.page, chunkIndex := 0, text := jsTrim p.text,
           startChar := p.startIndex, endChar := p.startIndex + p.text.length }]
      else [] := by
  rw [chunkText]
  simp only [List.flatMap_cons, List.flatMap_nil, List.append_nil]
  rw [chunkPageLoop_short cs ov p.text (le_of_lt h)]
  by_cases h50 : 50 < (jsTrim p.text).length
  · rw [if_pos h50, if_pos h50]
    simp [List.enumFrom_cons]
  · rw [if_neg h50, if_neg h50]
    simp

/-- C7: every chunk comes from a single page (its text is an infix
of that page's text and it carries that page's number); no chunk with
trimmed length at most 50 appears; chunk indices are `0, 1, 2, …`
consecutively across the whole document regardless of page; each
chunk's start offset is a whole number of `(chunkSize - overlap)` steps
from its page start; and a page shorter than the window yields exactly
one chunk when its trimmed text meets the minimum length, else zero. -/
theorem C7_chunker_invariants :
    ∀ (pages : List PageText) (chunkSize overlap : ℕ),
      (∀ c ∈ chunkText pages chunkSize overlap,
        ∃ p ∈ pages, c.page = p.page ∧ c.text <:+: p.text ∧
          ∃ k, c.startChar = p.startIndex + k * (chunkSize - overlap)) ∧
      (∀ c ∈ chunkText pages chunkSize overlap, 50 < c.text.length) ∧
      ((chunkText pages chunkSize overlap).map (fun c => c.chunkIndex) =
        List.range (chunkText pages chunkSize overlap).length) ∧
      (∀ p : PageText, p.text.length < chunkSize →
        chunkText [p] chunkSize overlap =
          if 50 < (jsTrim p.text).length then
            [{ page := p.page, chunkIndex := 0, text := jsTrim p.text,
               startChar := p.startIndex, endChar := p.startIndex + p.text.length }]
          else []) := by
  intro pages cs ov
  refine ⟨fun c hc => ?_, fun c hc => ?_, chunkText_indices pages cs ov,
    fun p hp => chunkText_single_short p cs ov hp⟩
  · obtain ⟨p, hp, hpage, hinf, _, hk⟩ := chunkText_mem_spec pages cs ov c hc
    exact ⟨p, hp, hpage, hinf, hk⟩
  · obtain ⟨p, hp, _, _, hlen, _⟩ := chunkText_mem_spec pages cs ov c hc
    exact hlen

/-- A 55-character single page (page 1, offset 0). -/
def samplePage55 : PageText :=
  { page := 1
    text := "The quick brown fox jumps over the lazy dog; 0123456789".toList
    startIndex := 0
    endIndex := 55 }

/-- Witness for C7: the sample page is shorter than the default window
and longer than the minimum, so it yields exactly its one trimmed
chunk, whose index is 0 and whose text is within the page. -/
theorem C7_chunker_invariants_witness :
    chunkText [samplePage55] 500 100 =
      [{ page := 1, chunkIndex := 0, text := samplePage55.text,
         startChar := 0, endChar := 55 }] := by
  have h := (C7_chunker_invariants [samplePage55] 500 100).2.2.2 samplePage55 (by decide)
  rw [h]
  decide

/-- C10: the minimum-length test is strict — every emitted chunk
has trimmed length strictly greater than 50, and a page whose trimmed
text has length exactly 50 (shorter than the window) produces zero
chunks. -/
theorem C10_min_length_strict :
    (∀ (pages : List PageText) (chunkSize overlap : ℕ),
      ∀ c ∈ chunkText pages chunkSize overlap, 50 < c.text.length) ∧
    (∀ (p : PageText) (chunkSize overlap : ℕ),
      p.text.length < chunkSize → (jsTrim p.text).length = 50 →
      chunkText [p] chunkSize overlap = []) := by
  constructor
  · intro pages cs ov c hc
    obtain ⟨p, hp, _, _, hlen, _⟩ := chunkText_mem_spec pages cs ov c hc
    exact hlen
  · intro p cs ov hlt h50
    rw [chunkText_single_short p cs ov hlt, h50]
    simp

/-- A page whose text is exactly 50 characters (no surrounding
whitespace, so trimming is the identity). -/
def samplePage50 : PageText :=
  { page := 2
    text := "The quick brown fox jumps over the lazy dog; 01234".toList
    startIndex := 55
    endIndex := 105 }

/-- Witness for C10: the 50-character page is discarded entirely. -/
theorem C10_min_length_strict_witness :
    chunkText [samplePage50] 500 100 = [] :=
  C10_min_length_strict.2 samplePage50 500 100 (by decide) (by decide)

end Vertis
